import Mathlib

/-!
Shallow embedding of the IT asset inventory application's handler layer
(`src/server/src/handlers/*` and the unnamed server files) over an explicit
relational-store state.

Modelling conventions, fixed throughout:
* The relational store is a record of lists of rows (`DB`); `serial` primary
  keys are modelled by `freshId` (max id + 1, matching a fresh sequence).
* Timestamps (`new Date()`, `defaultNow()`) are a `Nat` drawn from the
  clock field `DB.now`; `numeric` money columns are `Rat` (the handlers
  round-trip them through strings with `parseFloat`, an identity here).
* Nullable text columns are `Option String`.  Optional fields of a zod
  update input are wrapped in one more `Option`: `none` = field absent
  (`undefined`), matching the `!== undefined` checks in the handlers;
  drizzle's `.set` skips absent fields.
* A handler that throws is `Except.error msg`; every handler of this code
  base performs all of its writes after its last possible throw, so an
  error carries no state and leaves the store unchanged by construction.
* Postgres behaviour that the code relies on but does not itself spell out
  (foreign-key `NO ACTION` on delete, the unique constraint on
  `inventory_items.item_code`) is modelled from the drizzle schema
  (`src/unnamed/part_005`); the exact wording of those store-generated
  error messages is a modelling choice, the handlers only re-throw them.
-/

/-- `item_condition` enum from the drizzle schema. -/
inductive Condition where
  | excellent | good | fair | poor | damaged
deriving DecidableEq, Repr

/-- `transfer_status` enum from the drizzle schema. -/
inductive TransferStatus where
  | pending | in_transit | completed | cancelled
deriving DecidableEq, Repr

/-- `user_role` enum from the drizzle schema. -/
inductive Role where
  | admin | user
deriving DecidableEq, Repr

/-- Row of the `locations` table. -/
structure LocationRow where
  id : Nat
  name : String
  branch_code : String
  address : Option String
  created_at : Nat
  updated_at : Nat
deriving DecidableEq, Repr

/-- Row of the `categories` table. -/
structure CategoryRow where
  id : Nat
  name : String
  description : Option String
  created_at : Nat
  updated_at : Nat
deriving DecidableEq, Repr

/-- Row of the `suppliers` table. -/
structure SupplierRow where
  id : Nat
  name : String
  contact_person : Option String
  phone_number : Option String
  address : Option String
  created_at : Nat
  updated_at : Nat
deriving DecidableEq, Repr

/-- Row of the `inventory_items` table. -/
structure ItemRow where
  id : Nat
  item_code : String
  name : String
  description : Option String
  category_id : Nat
  location_id : Nat
  condition : Condition
  quantity : Nat
  purchase_price : Rat
  purchase_date : Nat
  created_at : Nat
  updated_at : Nat
deriving DecidableEq, Repr

/-- Row of the `purchases` table. -/
structure PurchaseRow where
  id : Nat
  item_id : Nat
  supplier_id : Nat
  quantity : Nat
  unit_price : Rat
  total_price : Rat
  purchase_date : Nat
  notes : Option String
  created_at : Nat
  updated_at : Nat
deriving DecidableEq, Repr

/-- Row of the `location_history` table. -/
structure HistoryRow where
  id : Nat
  item_id : Nat
  from_location_id : Option Nat
  to_location_id : Nat
  transfer_date : Nat
  transferred_by : String
  reason : Option String
  status : TransferStatus
  notes : Option String
  created_at : Nat
  updated_at : Nat
deriving DecidableEq, Repr

/-- Row of the `users` table. -/
structure UserRow where
  id : Nat
  username : String
  password_hash : String
  role : Role
  is_active : Bool
  created_at : Nat
  updated_at : Nat
deriving DecidableEq, Repr

/-- Row of the `sessions` table. -/
structure SessionRow where
  id : String
  user_id : Nat
  expires_at : Nat
  created_at : Nat
deriving DecidableEq, Repr

/-- The relational store, one list per table, plus the ambient clock used
for `new Date()` / column defaults. -/
structure DB where
  locations : List LocationRow := []
  categories : List CategoryRow := []
  suppliers : List SupplierRow := []
  items : List ItemRow := []
  purchases : List PurchaseRow := []
  history : List HistoryRow := []
  users : List UserRow := []
  sessions : List SessionRow := []
  now : Nat := 0
deriving DecidableEq, Repr

instance : Inhabited DB := ⟨{}⟩

deriving instance DecidableEq for Except

/-- Next value of a `serial` column: one more than the largest id in use. -/
def freshId (ids : List Nat) : Nat := ids.foldr max 0 + 1

/-- `SELECT * FROM t WHERE id = …` followed by taking `results[0]`. -/
def findItem (db : DB) (id : Nat) : Option ItemRow :=
  db.items.find? (fun r => r.id = id)

def findLocation (db : DB) (id : Nat) : Option LocationRow :=
  db.locations.find? (fun r => r.id = id)

def findCategory (db : DB) (id : Nat) : Option CategoryRow :=
  db.categories.find? (fun r => r.id = id)

def findSupplier (db : DB) (id : Nat) : Option SupplierRow :=
  db.suppliers.find? (fun r => r.id = id)

def findPurchase (db : DB) (id : Nat) : Option PurchaseRow :=
  db.purchases.find? (fun r => r.id = id)

def findHist (db : DB) (id : Nat) : Option HistoryRow :=
  db.history.find? (fun r => r.id = id)

/-! ## locations.ts -/

/-- `getLocations`: `SELECT * FROM locations`. -/
def getLocations (db : DB) : List LocationRow := db.locations

/-- `getLocationById`: returns the row when present, `null` otherwise. -/
def getLocationById (db : DB) (id : Nat) : Option LocationRow :=
  findLocation db id

/-- `createLocation`: inserts a row with generated id and timestamps and
returns it. -/
def createLocation (db : DB) (name branch_code : String)
    (address : Option String) : Except String (LocationRow × DB) :=
  let row : LocationRow :=
    { id := freshId (db.locations.map (fun r => r.id))
      name := name, branch_code := branch_code, address := address
      created_at := db.now, updated_at := db.now }
  .ok (row, { db with locations := db.locations ++ [row] })

/-- Input of `updateLocation` (`updateLocationInputSchema`): optional fields
are absent when `none`. -/
structure UpdateLocationInput where
  id : Nat
  name : Option String := none
  branch_code : Option String := none
  address : Option (Option String) := none
deriving DecidableEq, Repr

/-- `updateLocation`: applies only the supplied fields to the matching row,
throws `not found` when no row matched. -/
def updateLocation (db : DB) (input : UpdateLocationInput) :
    Except String (LocationRow × DB) :=
  let upd := fun (r : LocationRow) =>
    if r.id = input.id then
      { r with
        name := input.name.getD r.name
        branch_code := input.branch_code.getD r.branch_code
        address := input.address.getD r.address
        updated_at := db.now }
    else r
  match (db.locations.map upd).find? (fun r => r.id = input.id) with
  | none =>
      .error ("Location with ID " ++ toString input.id ++ " not found")
  | some row =>
      .ok (row, { db with locations := db.locations.map upd })

/-- A location is referenced through a foreign key (drizzle schema:
`inventory_items.location_id`, `location_history.from_location_id`,
`location_history.to_location_id`). -/
def locationReferenced (db : DB) (id : Nat) : Bool :=
  db.items.any (fun r => r.location_id = id) ||
  db.history.any (fun r => r.from_location_id = some id) ||
  db.history.any (fun r => r.to_location_id = id)

/-- `deleteLocation`: `DELETE … RETURNING`; the store raises a foreign-key
violation when the row is still referenced (caught and re-thrown by the
handler), otherwise reports whether a row was deleted. -/
def deleteLocation (db : DB) (id : Nat) : Except String (Bool × DB) :=
  if db.locations.any (fun r => r.id = id) then
    if locationReferenced db id then
      .error ("delete on table locations violates foreign key constraint")
    else
      .ok (true, { db with
        locations := db.locations.filter (fun r => ¬ r.id = id) })
  else
    .ok (false, db)

/-! ## categories handler (src/unnamed/part_007) — placeholder stubs.
These functions are the repository's only categories handler; each body is
marked "This is a placeholder declaration!".  They never touch the store. -/

/-- JavaScript `a || b` on an optional string: `undefined`, `null` and the
empty string are falsy. -/
def jsOrString (a : Option String) (b : String) : String :=
  match a with
  | some s => if s = "" then b else s
  | none => b

/-- JavaScript `a || null` on a nullable-optional string. -/
def jsOrNull (a : Option (Option String)) : Option String :=
  match a with
  | some (some s) => if s = "" then none else some s
  | _ => none

/-- Input of `updateCategory` (`updateCategoryInputSchema`). -/
structure UpdateCategoryInput where
  id : Nat
  name : Option String := none
  description : Option (Option String) := none
deriving DecidableEq, Repr

/-- Stub `getCategories`: always returns the empty list. -/
def getCategories (_db : DB) : List CategoryRow := []

/-- Stub `getCategoryById`: always returns `null`. -/
def getCategoryById (_db : DB) (_id : Nat) : Option CategoryRow := none

/-- Stub `updateCategory`: fabricates a row from the input alone
(`input.name || 'Default Category'`), reads and writes nothing. -/
def updateCategory (db : DB) (input : UpdateCategoryInput) :
    Except String (CategoryRow × DB) :=
  .ok ({ id := input.id
         name := jsOrString input.name "Default Category"
         description := jsOrNull input.description
         created_at := db.now, updated_at := db.now }, db)

/-- Stub `deleteCategory`: returns `true` without touching the store. -/
def deleteCategory (db : DB) (_id : Nat) : Except String (Bool × DB) :=
  .ok (true, db)

/-! ## inventory.ts -/

/-- `getInventoryItems`: `SELECT * FROM inventory_items` (the numeric
round-trip `parseFloat ∘ toString` is the identity here). -/
def getInventoryItems (db : DB) : List ItemRow := db.items

/-- `getInventoryItemById`: the row when present, `null` otherwise. -/
def getInventoryItemById (db : DB) (id : Nat) : Option ItemRow :=
  findItem db id

/-- Store-level insert into `inventory_items`: enforces the unique
constraint on `item_code` and the two foreign keys declared in the drizzle
schema. -/
def dbInsertItem (db : DB) (item_code name : String)
    (description : Option String) (category_id location_id : Nat)
    (condition : Condition) (quantity : Nat) (purchase_price : Rat)
    (purchase_date : Nat) : Except String (ItemRow × DB) :=
  if db.items.any (fun r => r.item_code = item_code) then
    .error ("duplicate key value violates unique constraint on item_code")
  else if ¬ db.categories.any (fun r => r.id = category_id) then
    .error ("insert into inventory_items violates foreign key on category_id")
  else if ¬ db.locations.any (fun r => r.id = location_id) then
    .error ("insert into inventory_items violates foreign key on location_id")
  else
    let row : ItemRow :=
      { id := freshId (db.items.map (fun r => r.id))
        item_code := item_code, name := name, description := description
        category_id := category_id, location_id := location_id
        condition := condition, quantity := quantity
        purchase_price := purchase_price, purchase_date := purchase_date
        created_at := db.now, updated_at := db.now }
    .ok (row, { db with items := db.items ++ [row] })

/-- Input of `createInventoryItem` (`createInventoryItemInputSchema`). -/
structure CreateItemInput where
  item_code : String
  name : String
  description : Option String := none
  category_id : Nat
  location_id : Nat
  condition : Condition
  quantity : Nat
  purchase_price : Rat
  purchase_date : Nat
deriving DecidableEq, Repr

/-- `createInventoryItem`: verifies that the referenced category and
location exist (in that order), then inserts. -/
def createInventoryItem (db : DB) (input : CreateItemInput) :
    Except String (ItemRow × DB) :=
  if ¬ db.categories.any (fun r => r.id = input.category_id) then
    .error ("Category with ID " ++ toString input.category_id ++
      " does not exist")
  else if ¬ db.locations.any (fun r => r.id = input.location_id) then
    .error ("Location with ID " ++ toString input.location_id ++
      " does not exist")
  else
    dbInsertItem db input.item_code input.name input.description
      input.category_id input.location_id input.condition input.quantity
      input.purchase_price input.purchase_date

/-- Returns the value of an optional foreign-key field when it is supplied
but references no existing row (`if (input.x !== undefined) { check }`). -/
def fkViolation (present : Nat → Bool) (o : Option Nat) : Option Nat :=
  match o with
  | some v => if present v then none else some v
  | none => none

/-- Input of `updateInventoryItem` (`updateInventoryItemInputSchema`);
`none` = field absent. -/
structure UpdateItemInput where
  id : Nat
  item_code : Option String := none
  name : Option String := none
  description : Option (Option String) := none
  category_id : Option Nat := none
  location_id : Option Nat := none
  condition : Option Condition := none
  quantity : Option Nat := none
  purchase_price : Option Rat := none
  purchase_date : Option Nat := none
deriving DecidableEq, Repr

/-- `updateInventoryItem`: requires the row to exist, validates supplied
foreign keys, then applies exactly the supplied fields. -/
def updateInventoryItem (db : DB) (input : UpdateItemInput) :
    Except String (ItemRow × DB) :=
  match findItem db input.id with
  | none =>
      .error ("Inventory item with ID " ++ toString input.id ++
        " does not exist")
  | some cur =>
      match fkViolation (fun cid => db.categories.any (fun r => r.id = cid))
          input.category_id with
      | some cid =>
          .error ("Category with ID " ++ toString cid ++ " does not exist")
      | none =>
          match fkViolation
              (fun lid => db.locations.any (fun r => r.id = lid))
              input.location_id with
          | some lid =>
              .error ("Location with ID " ++ toString lid ++
                " does not exist")
          | none =>
              let upd := fun (r : ItemRow) =>
                if r.id = input.id then
                  { r with
                    item_code := input.item_code.getD r.item_code
                    name := input.name.getD r.name
                    description := input.description.getD r.description
                    category_id := input.category_id.getD r.category_id
                    location_id := input.location_id.getD r.location_id
                    condition := input.condition.getD r.condition
                    quantity := input.quantity.getD r.quantity
                    purchase_price :=
                      input.purchase_price.getD r.purchase_price
                    purchase_date := input.purchase_date.getD r.purchase_date
                    updated_at := db.now }
                else r
              .ok (upd cur, { db with items := db.items.map upd })

/-! ### batchImportItems -/

/-- One parsed batch-import row (`batchImportItemSchema`). -/
structure BatchRow where
  item_code : String
  name : String
  description : Option String := none
  category_name : String
  location_name : String
  condition : Condition
  quantity : Nat
  purchase_price : Rat
  purchase_date : Nat
deriving DecidableEq, Repr

/-- Structural model of JavaScript `toLowerCase` (per-character). -/
def lowerStr (s : String) : String := String.mk (s.data.map Char.toLower)

/-- Structural model of JavaScript `toUpperCase` (per-character). -/
def upperStr (s : String) : String := String.mk (s.data.map Char.toUpper)

/-- Structural model of JavaScript `substring(0, n)`. -/
def takeStr (s : String) (n : Nat) : String := String.mk (s.data.take n)

/-- JavaScript `Map.get`: the value most recently `set` for the key. -/
def amGet (m : List (String × Nat)) (k : String) : Option Nat :=
  (m.find? (fun p => p.1 = k)).map (fun p => p.2)

/-- JavaScript `Map.set`: overwrite the key when present, append it
otherwise. -/
def amSet (m : List (String × Nat)) (k : String) (v : Nat) :
    List (String × Nat) :=
  if m.any (fun p => p.1 = k) then
    m.map (fun p => if p.1 = k then (k, v) else p)
  else m ++ [(k, v)]

/-- JavaScript `new Map(entries)`: later duplicate keys overwrite. -/
def buildMap (entries : List (String × Nat)) : List (String × Nat) :=
  entries.foldl (fun m p => amSet m p.1 p.2) []

/-- Loop state of `batchImportItems`: the store plus the two name→id maps
and the success/error accumulators. -/
structure BatchAcc where
  db : DB
  catMap : List (String × Nat)
  locMap : List (String × Nat)
  success : Nat
  errors : List String
deriving Repr

/-- Find-or-create of the category for one row: `categoryMap.get(name
.toLowerCase())`, with the JavaScript falsy test `if (!categoryId)`. -/
def batchCategoryId (acc : BatchAcc) (r : BatchRow) : Nat × BatchAcc :=
  let key := lowerStr r.category_name
  if (amGet acc.catMap key).getD 0 = 0 then
    let cid := freshId (acc.db.categories.map (fun c => c.id))
    let row : CategoryRow :=
      { id := cid, name := r.category_name, description := none
        created_at := acc.db.now, updated_at := acc.db.now }
    (cid, { acc with
      db := { acc.db with categories := acc.db.categories ++ [row] }
      catMap := amSet acc.catMap key cid })
  else ((amGet acc.catMap key).getD 0, acc)

/-- Find-or-create of the location for one row; `rnd` stands for the
`Math.floor(Math.random() * 100)` suffix of the generated branch code. -/
def batchLocationId (rnd : Nat) (acc : BatchAcc) (r : BatchRow) :
    Nat × BatchAcc :=
  let key := lowerStr r.location_name
  if (amGet acc.locMap key).getD 0 = 0 then
    let lid := freshId (acc.db.locations.map (fun l => l.id))
    let row : LocationRow :=
      { id := lid, name := r.location_name
        branch_code := upperStr (takeStr r.location_name 3) ++ toString rnd
        address := none, created_at := acc.db.now, updated_at := acc.db.now }
    (lid, { acc with
      db := { acc.db with locations := acc.db.locations ++ [row] }
      locMap := amSet acc.locMap key lid })
  else ((amGet acc.locMap key).getD 0, acc)

/-- Body of the `for` loop of `batchImportItems` for the row at index `i`:
find-or-create category and location, insert the item, and on a per-row
failure push one formatted error message instead of aborting. -/
def batchProcessRow (i : Nat) (rand : Nat → Nat) (acc : BatchAcc)
    (r : BatchRow) : BatchAcc :=
  let p1 := batchCategoryId acc r
  let p2 := batchLocationId (rand i % 100) p1.2 r
  match dbInsertItem p2.2.db r.item_code r.name r.description p1.1 p2.1
      r.condition r.quantity r.purchase_price r.purchase_date with
  | .ok (_, db') => { p2.2 with db := db', success := p2.2.success + 1 }
  | .error msg =>
      { p2.2 with errors := p2.2.errors ++
          ["Item " ++ toString (i + 1) ++ " (" ++ r.item_code ++ "): " ++
            msg] }

/-- The `for` loop of `batchImportItems`. -/
def batchGo (rand : Nat → Nat) : Nat → List BatchRow → BatchAcc → BatchAcc
  | _, [], acc => acc
  | i, r :: rest, acc => batchGo rand (i + 1) rest (batchProcessRow i rand acc r)

/-- Return shape of `batchImportItems`. -/
structure BatchResult where
  success : Nat
  errors : List String
deriving DecidableEq, Repr

/-- `batchImportItems`: builds the lower-cased name→id maps from the
current store, processes every row, and returns the success count and the
collected per-row errors; `rand` is the oracle standing for
`Math.random`. -/
def batchImportItems (db : DB) (rows : List BatchRow) (rand : Nat → Nat) :
    BatchResult × DB :=
  let acc := batchGo rand 0 rows
    { db := db
      catMap := buildMap (db.categories.map (fun c => (lowerStr c.name, c.id)))
      locMap := buildMap (db.locations.map (fun l => (lowerStr l.name, l.id)))
      success := 0, errors := [] }
  ({ success := acc.success, errors := acc.errors }, acc.db)

/-! ## purchases handler (first segment of src/unnamed/part_008) -/

/-- `getPurchases`: `SELECT * FROM purchases`. -/
def getPurchases (db : DB) : List PurchaseRow := db.purchases

/-- `getPurchaseById`: the row when present, `null` otherwise. -/
def getPurchaseById (db : DB) (id : Nat) : Option PurchaseRow :=
  findPurchase db id

/-- Input of `createPurchase` (`createPurchaseInputSchema`). -/
structure CreatePurchaseInput where
  item_id : Nat
  supplier_id : Nat
  quantity : Nat
  unit_price : Rat
  purchase_date : Nat
  notes : Option String := none
deriving DecidableEq, Repr

/-- `createPurchase`: computes `total_price = quantity * unit_price`,
verifies the item and supplier references, inserts. -/
def createPurchase (db : DB) (input : CreatePurchaseInput) :
    Except String (PurchaseRow × DB) :=
  let totalPrice : Rat := (input.quantity : Rat) * input.unit_price
  if ¬ db.items.any (fun r => r.id = input.item_id) then
    .error ("Inventory item with ID " ++ toString input.item_id ++
      " does not exist")
  else if ¬ db.suppliers.any (fun r => r.id = input.supplier_id) then
    .error ("Supplier with ID " ++ toString input.supplier_id ++
      " does not exist")
  else
    let row : PurchaseRow :=
      { id := freshId (db.purchases.map (fun r => r.id))
        item_id := input.item_id, supplier_id := input.supplier_id
        quantity := input.quantity, unit_price := input.unit_price
        total_price := totalPrice, purchase_date := input.purchase_date
        notes := input.notes, created_at := db.now, updated_at := db.now }
    .ok (row, { db with purchases := db.purchases ++ [row] })

/-- Input of `updatePurchase` (`updatePurchaseInputSchema`); `none` = field
absent. -/
structure UpdatePurchaseInput where
  id : Nat
  item_id : Option Nat := none
  supplier_id : Option Nat := none
  quantity : Option Nat := none
  unit_price : Option Rat := none
  purchase_date : Option Nat := none
  notes : Option (Option String) := none
deriving DecidableEq, Repr

/-- `updatePurchase`: requires the row, validates supplied references,
recomputes `total_price` from the effective quantity and unit price, and
writes it only when quantity or unit price was supplied. -/
def updatePurchase (db : DB) (input : UpdatePurchaseInput) :
    Except String (PurchaseRow × DB) :=
  match findPurchase db input.id with
  | none =>
      .error ("Purchase with ID " ++ toString input.id ++ " does not exist")
  | some cur =>
      match fkViolation (fun iid => db.items.any (fun r => r.id = iid))
          input.item_id with
      | some iid =>
          .error ("Inventory item with ID " ++ toString iid ++
            " does not exist")
      | none =>
          match fkViolation
              (fun sid => db.suppliers.any (fun r => r.id = sid))
              input.supplier_id with
          | some sid =>
              .error ("Supplier with ID " ++ toString sid ++
                " does not exist")
          | none =>
              let quantity := input.quantity.getD cur.quantity
              let unitPrice := input.unit_price.getD cur.unit_price
              let totalPrice : Rat := (quantity : Rat) * unitPrice
              let upd := fun (r : PurchaseRow) =>
                if r.id = input.id then
                  { r with
                    item_id := input.item_id.getD r.item_id
                    supplier_id := input.supplier_id.getD r.supplier_id
                    quantity := input.quantity.getD r.quantity
                    unit_price := input.unit_price.getD r.unit_price
                    purchase_date := input.purchase_date.getD r.purchase_date
                    notes := input.notes.getD r.notes
                    total_price :=
                      if input.quantity.isSome || input.unit_price.isSome
                      then totalPrice else r.total_price
                    updated_at := db.now }
                else r
              .ok (upd cur, { db with purchases := db.purchases.map upd })

/-! ## location_history.ts -/

/-- Descending `(created_at, id)` order produced by
`orderBy(desc(created_at), desc(id))`: `a` may come before `b`. -/
def histLe (a b : HistoryRow) : Prop :=
  b.created_at < a.created_at ∨
    (b.created_at = a.created_at ∧ b.id ≤ a.id)

instance : DecidableRel histLe := fun a b => by
  unfold histLe; infer_instance

instance : IsTotal HistoryRow histLe := by
  constructor; intro a b; unfold histLe; omega

instance : IsTrans HistoryRow histLe := by
  constructor; intro a b c hab hbc; unfold histLe at hab hbc ⊢; omega

/-- `getLocationHistory`: all rows, ordered by `created_at` descending with
ties broken by `id` descending. -/
def getLocationHistory (db : DB) : List HistoryRow :=
  List.insertionSort histLe db.history

/-- `getLocationHistoryById`: the row when present, `null` otherwise. -/
def getLocationHistoryById (db : DB) (id : Nat) : Option HistoryRow :=
  findHist db id

/-- Input of `createLocationHistory`
(`createLocationHistoryInputSchema`). -/
structure CreateHistoryInput where
  item_id : Nat
  from_location_id : Option Nat := none
  to_location_id : Nat
  transfer_date : Nat
  transferred_by : String
  reason : Option String := none
  status : TransferStatus
  notes : Option String := none
deriving DecidableEq, Repr

/-- Insert step of `createLocationHistory`: the record is inserted, then —
only when the input status is `completed` — the referenced item's
`location_id` is set to `to_location_id`. -/
def createLocationHistoryInsert (db : DB) (input : CreateHistoryInput) :
    HistoryRow × DB :=
  let row : HistoryRow :=
    { id := freshId (db.history.map (fun r => r.id))
      item_id := input.item_id, from_location_id := input.from_location_id
      to_location_id := input.to_location_id
      transfer_date := input.transfer_date
      transferred_by := input.transferred_by, reason := input.reason
      status := input.status, notes := input.notes
      created_at := db.now, updated_at := db.now }
  let db1 := { db with history := db.history ++ [row] }
  let db2 :=
    if input.status = TransferStatus.completed then
      { db1 with items := db1.items.map (fun it =>
          if it.id = input.item_id then
            { it with location_id := input.to_location_id,
                      updated_at := db.now }
          else it) }
    else db1
  (row, db2)

/-- `createLocationHistory`: validates item, destination and (when given)
source location, inserts, and applies the completed-transfer side effect. -/
def createLocationHistory (db : DB) (input : CreateHistoryInput) :
    Except String (HistoryRow × DB) :=
  if ¬ db.items.any (fun r => r.id = input.item_id) then
    .error ("Item with ID " ++ toString input.item_id ++ " does not exist")
  else if ¬ db.locations.any (fun r => r.id = input.to_location_id) then
    .error ("Location with ID " ++ toString input.to_location_id ++
      " does not exist")
  else
    match fkViolation (fun fid => db.locations.any (fun r => r.id = fid))
        input.from_location_id with
    | some fid =>
        .error ("Location with ID " ++ toString fid ++ " does not exist")
    | none => .ok (createLocationHistoryInsert db input)

/-- Input of `updateLocationHistory`
(`updateLocationHistoryInputSchema`); `none` = field absent. -/
structure UpdateHistoryInput where
  id : Nat
  status : Option TransferStatus := none
  notes : Option (Option String) := none
deriving DecidableEq, Repr

/-- `updateLocationHistory`: requires the row, applies the supplied fields,
and moves the referenced item only when the input status is `completed`
and the row was not already `completed`. -/
def updateLocationHistory (db : DB) (input : UpdateHistoryInput) :
    Except String (HistoryRow × DB) :=
  match findHist db input.id with
  | none =>
      .error ("Location history with ID " ++ toString input.id ++
        " does not exist")
  | some cur =>
      let upd := fun (r : HistoryRow) =>
        if r.id = input.id then
          { r with
            status := input.status.getD r.status
            notes := input.notes.getD r.notes
            updated_at := db.now }
        else r
      let db1 := { db with history := db.history.map upd }
      let db2 :=
        if input.status = some TransferStatus.completed ∧
            cur.status ≠ TransferStatus.completed then
          { db1 with items := db1.items.map (fun it =>
              if it.id = cur.item_id then
                { it with location_id := cur.to_location_id,
                          updated_at := db.now }
              else it) }
        else db1
      .ok (upd cur, db2)

/-! ## users.ts -/

/-- The projected user shape selected by the users handlers: every select
lists the columns explicitly and `password_hash` is not among them. -/
structure User where
  id : Nat
  username : String
  role : Role
  is_active : Bool
  created_at : Nat
  updated_at : Nat
deriving DecidableEq, Repr

/-- The explicit column list of the users selects. -/
def projectUser (u : UserRow) : User :=
  { id := u.id, username := u.username, role := u.role
    is_active := u.is_active, created_at := u.created_at
    updated_at := u.updated_at }

/-- `getUsers`: all users under the explicit hash-free projection. -/
def getUsers (db : DB) : List User := db.users.map projectUser

/-- `getUserById`: the projected user when present, `null` otherwise. -/
def getUserById (db : DB) (id : Nat) : Option User :=
  (db.users.find? (fun r => r.id = id)).map projectUser

/-- Return shape of `deleteUser`. -/
structure DeleteUserResult where
  success : Bool
deriving DecidableEq, Repr

/-- `deleteUser`: refuses to delete the user named `admin`; otherwise
deletes the user's sessions and then the user and reports success. -/
def deleteUser (db : DB) (id : Nat) :
    Except String (DeleteUserResult × DB) :=
  if (getUserById db id).any (fun u => u.username = "admin") then
    .error ("Cannot delete the admin user")
  else
    .ok ({ success := true },
      { db with
        sessions := db.sessions.filter (fun s => ¬ s.user_id = id)
        users := db.users.filter (fun u => ¬ u.id = id) })

/-! ## suppliers handler (third segment of src/unnamed/part_008) -/

/-- `getSuppliers`: `SELECT * FROM suppliers`. -/
def getSuppliers (db : DB) : List SupplierRow := db.suppliers

/-- `getSupplierById`: `results[0] || null` — the row when present,
`null` otherwise (a row object is never falsy). -/
def getSupplierById (db : DB) (id : Nat) : Option SupplierRow :=
  findSupplier db id

/-! ## Helper lemmas -/

/-- `find?` commutes with mapping a function that does not change the
predicate's verdict (used for `UPDATE … WHERE id = …` steps, which keep
row ids). -/
theorem find?_map_stable {α : Type} (f : α → α) (p : α → Bool)
    (hf : ∀ a, p (f a) = p a) :
    ∀ l : List α, (l.map f).find? p = (l.find? p).map f := by
  intro l
  induction l with
  | nil => rfl
  | cons a l ih =>
    simp only [List.map_cons, List.find?_cons, hf]
    cases h : p a
    · simpa using ih
    · simp

/-- Claim C8: for every database state, `getLocationHistory` returns all
`LocationHistory` rows (a permutation of the table) sorted by `created_at`
descending with ties broken by `id` descending (`histLe`). -/
theorem C8_history_sorted (db : DB) :
    List.Perm (getLocationHistory db) db.history ∧
    List.Sorted histLe (getLocationHistory db) :=
  ⟨List.perm_insertionSort histLe db.history,
   List.sorted_insertionSort histLe db.history⟩

/-- Claim C6: for every entity — InventoryItem, Location, Purchase,
LocationHistory, User, Category (whose stub getters return `none`/`[]`
unconditionally, so in particular on a missing id / empty table) and
Supplier (real handler, part_008) — get-by-id on an id matching no row
returns `none` (not an error), and list-all on an empty table returns
`[]`. -/
theorem C6_missing_and_empty :
    (∀ db id, (∀ r ∈ db.items, r.id ≠ id) →
      getInventoryItemById db id = none)
  ∧ (∀ db id, (∀ r ∈ db.locations, r.id ≠ id) →
      getLocationById db id = none)
  ∧ (∀ db id, (∀ r ∈ db.purchases, r.id ≠ id) →
      getPurchaseById db id = none)
  ∧ (∀ db id, (∀ r ∈ db.history, r.id ≠ id) →
      getLocationHistoryById db id = none)
  ∧ (∀ db id, (∀ r ∈ db.users, r.id ≠ id) → getUserById db id = none)
  ∧ (∀ db id, (∀ r ∈ db.categories, r.id ≠ id) →
      getCategoryById db id = none)
  ∧ (∀ db id, (∀ r ∈ db.suppliers, r.id ≠ id) →
      getSupplierById db id = none)
  ∧ (∀ db, db.items = [] → getInventoryItems db = [])
  ∧ (∀ db, db.locations = [] → getLocations db = [])
  ∧ (∀ db, db.purchases = [] → getPurchases db = [])
  ∧ (∀ db, db.history = [] → getLocationHistory db = [])
  ∧ (∀ db, db.users = [] → getUsers db = [])
  ∧ (∀ db, db.categories = [] → getCategories db = [])
  ∧ (∀ db, db.suppliers = [] → getSuppliers db = []) := by
  refine ⟨?_, ?_, ?_, ?_, ?_, ?_, ?_, ?_, ?_, ?_, ?_, ?_, ?_, ?_⟩
  · intro db id h
    unfold getInventoryItemById findItem
    rw [List.find?_eq_none]
    intro a ha
    simpa using h a ha
  · intro db id h
    unfold getLocationById findLocation
    rw [List.find?_eq_none]
    intro a ha
    simpa using h a ha
  · intro db id h
    unfold getPurchaseById findPurchase
    rw [List.find?_eq_none]
    intro a ha
    simpa using h a ha
  · intro db id h
    unfold getLocationHistoryById findHist
    rw [List.find?_eq_none]
    intro a ha
    simpa using h a ha
  · intro db id h
    unfold getUserById
    rw [List.find?_eq_none.2 (fun a ha => by simpa using h a ha)]
    rfl
  · intro db id h
    rfl
  · intro db id h
    unfold getSupplierById findSupplier
    rw [List.find?_eq_none]
    intro a ha
    simpa using h a ha
  · intro db h
    unfold getInventoryItems
    exact h
  · intro db h
    unfold getLocations
    exact h
  · intro db h
    unfold getPurchases
    exact h
  · intro db h
    unfold getLocationHistory
    rw [h]
    rfl
  · intro db h
    unfold getUsers
    rw [h]
    rfl
  · intro db h
    rfl
  · intro db h
    unfold getSuppliers
    exact h

/-- Witness for C6, on the empty store with id 1. -/
theorem C6_missing_and_empty_witness :
    getInventoryItemById {} 1 = none ∧ getLocationById {} 1 = none ∧
    getPurchaseById {} 1 = none ∧ getLocationHistoryById {} 1 = none ∧
    getUserById {} 1 = none ∧ getCategoryById {} 1 = none ∧
    getSupplierById {} 1 = none ∧ getInventoryItems {} = [] ∧
    getLocations {} = [] ∧ getPurchases {} = [] ∧
    getLocationHistory {} = [] ∧ getUsers {} = [] ∧
    getCategories {} = [] ∧ getSuppliers {} = [] := by
  obtain ⟨h1, h2, h3, h4, h5, h6, h7, h8, h9, h10, h11, h12, h13, h14⟩ :=
    C6_missing_and_empty
  exact ⟨h1 {} 1 (by simp), h2 {} 1 (by simp), h3 {} 1 (by simp),
    h4 {} 1 (by simp), h5 {} 1 (by simp), h6 {} 1 (by simp),
    h7 {} 1 (by simp), h8 {} rfl, h9 {} rfl, h10 {} rfl, h11 {} rfl,
    h12 {} rfl, h13 {} rfl, h14 {} rfl⟩

/-- Claim C2: every successful `createPurchase` persists
`total_price = quantity * unit_price`, and every successful
`updatePurchase` that supplies `quantity` or `unit_price` persists
`total_price` = effective quantity × effective unit price (supplied value
when present, previously stored value otherwise). -/
theorem C2_total_price :
    (∀ db inp p db', createPurchase db inp = Except.ok (p, db') →
      p.total_price = (inp.quantity : Rat) * inp.unit_price ∧
      p ∈ db'.purchases)
  ∧ (∀ db inp p db' cur, findPurchase db inp.id = some cur →
      (inp.quantity ≠ none ∨ inp.unit_price ≠ none) →
      updatePurchase db inp = Except.ok (p, db') →
      p.total_price = ((inp.quantity.getD cur.quantity : Nat) : Rat) *
        (inp.unit_price.getD cur.unit_price) ∧
      p ∈ db'.purchases) := by
  constructor
  · intro db inp p db' h
    unfold createPurchase at h
    split at h
    · simp at h
    split at h
    · simp at h
    · simp only [Except.ok.injEq, Prod.mk.injEq] at h
      obtain ⟨hp, hdb⟩ := h
      subst hp
      subst hdb
      exact ⟨rfl, by simp⟩
  · intro db inp p db' cur hcur hsup h
    have hsome : (inp.quantity.isSome || inp.unit_price.isSome) = true := by
      rcases hsup with h1 | h1
      · cases hq : inp.quantity with
        | none => exact absurd hq h1
        | some v => simp [hq]
      · cases hq : inp.unit_price with
        | none => exact absurd hq h1
        | some v => simp [hq]
    unfold updatePurchase at h
    rw [hcur] at h
    cases hfi : fkViolation
        (fun iid => db.items.any fun r => decide (r.id = iid))
        inp.item_id with
    | some iid =>
      rw [hfi] at h
      simp at h
    | none =>
    rw [hfi] at h
    cases hfs : fkViolation
        (fun sid => db.suppliers.any fun r => decide (r.id = sid))
        inp.supplier_id with
    | some sid =>
      rw [hfs] at h
      simp at h
    | none =>
      rw [hfs] at h
      simp only [Except.ok.injEq, Prod.mk.injEq] at h
      obtain ⟨hp, hdb⟩ := h
      have hcid : cur.id = inp.id := by
        simpa using List.find?_some hcur
      subst hp
      subst hdb
      constructor
      · simp [hcid, hsome]
      · exact List.mem_map_of_mem _ (List.mem_of_find?_eq_some hcur)

/-- Claim C7: `createInventoryItem` fails with the documented message when
the referenced category (checked first) or location does not exist, the
store is unchanged on failure (errors carry no state by construction), and
on success the inserted item references existing rows. -/
theorem C7_create_item (db : DB) (inp : CreateItemInput) :
    ((¬ ∃ c ∈ db.categories, c.id = inp.category_id) →
      createInventoryItem db inp = Except.error
        ("Category with ID " ++ toString inp.category_id ++
          " does not exist"))
  ∧ ((∃ c ∈ db.categories, c.id = inp.category_id) →
     (¬ ∃ l ∈ db.locations, l.id = inp.location_id) →
      createInventoryItem db inp = Except.error
        ("Location with ID " ++ toString inp.location_id ++
          " does not exist"))
  ∧ (∀ it db', createInventoryItem db inp = Except.ok (it, db') →
      it ∈ db'.items ∧ it.category_id = inp.category_id ∧
      it.location_id = inp.location_id ∧
      (∃ c ∈ db'.categories, c.id = it.category_id) ∧
      (∃ l ∈ db'.locations, l.id = it.location_id)) := by
  refine ⟨?_, ?_, ?_⟩
  · intro hnc
    have hb : (db.categories.any fun r => decide (r.id = inp.category_id))
        = false := by
      rw [List.any_eq_false]
      intro a ha
      simpa using fun he => hnc ⟨a, ha, he⟩
    simp [createInventoryItem, hb]
  · intro hc hnl
    have hb : (db.categories.any fun r => decide (r.id = inp.category_id))
        = true := by
      rw [List.any_eq_true]
      obtain ⟨c, hcm, hcid⟩ := hc
      exact ⟨c, hcm, by simpa using hcid⟩
    have hbl : (db.locations.any fun r => decide (r.id = inp.location_id))
        = false := by
      rw [List.any_eq_false]
      intro a ha
      simpa using fun he => hnl ⟨a, ha, he⟩
    simp [createInventoryItem, hb, hbl]
  · intro it db' h
    unfold createInventoryItem at h
    split at h
    · simp at h
    · split at h
      · simp at h
      · unfold dbInsertItem at h
        split at h
        · simp at h
        · rename_i hcat hloc hdup
          simp only [Except.ok.injEq, Prod.mk.injEq] at h
          obtain ⟨hit, hdb⟩ := h
          subst hit
          subst hdb
          refine ⟨by simp, rfl, rfl, ?_, ?_⟩
          · obtain ⟨c, hcm, hcid⟩ := List.any_eq_true.1 (not_not.mp hcat)
            exact ⟨c, hcm, by simpa using hcid⟩
          · obtain ⟨l, hlm, hlid⟩ := List.any_eq_true.1 (not_not.mp hloc)
            exact ⟨l, hlm, by simpa using hlid⟩

/-- A category row used by the concrete witnesses. -/
def wCat : CategoryRow :=
  { id := 1, name := "Hardware", description := none
    created_at := 0, updated_at := 0 }

/-- A location row used by the concrete witnesses. -/
def wLoc : LocationRow :=
  { id := 1, name := "HQ", branch_code := "HQ1", address := none
    created_at := 0, updated_at := 0 }

def wC7db : DB := { locations := [wLoc], categories := [wCat] }

def wC7inp : CreateItemInput :=
  { item_code := "A1", name := "Laptop", category_id := 1
    location_id := 1, condition := Condition.good, quantity := 2
    purchase_price := 10, purchase_date := 0 }

def wC7row : ItemRow :=
  { id := 1, item_code := "A1", name := "Laptop", description := none
    category_id := 1, location_id := 1, condition := Condition.good
    quantity := 2, purchase_price := 10, purchase_date := 0
    created_at := 0, updated_at := 0 }

def wC7dbAfter : DB :=
  { locations := [wLoc], categories := [wCat], items := [wC7row] }

/-- Witness for C7 on a one-category, one-location store. -/
theorem C7_create_item_witness :
    createInventoryItem wC7db { wC7inp with category_id := 2 } =
      Except.error ("Category with ID 2 does not exist") ∧
    createInventoryItem wC7db { wC7inp with location_id := 5 } =
      Except.error ("Location with ID 5 does not exist") ∧
    (wC7row ∈ wC7dbAfter.items ∧
     wC7row.category_id = wC7inp.category_id ∧
     wC7row.location_id = wC7inp.location_id ∧
     (∃ c ∈ wC7dbAfter.categories, c.id = wC7row.category_id) ∧
     (∃ l ∈ wC7dbAfter.locations, l.id = wC7row.location_id)) := by
  refine ⟨?_, ?_, ?_⟩
  · exact (C7_create_item wC7db { wC7inp with category_id := 2 }).1
      (by decide)
  · exact (C7_create_item wC7db { wC7inp with location_id := 5 }).2.1
      (by decide) (by decide)
  · exact (C7_create_item wC7db wC7inp).2.2 wC7row wC7dbAfter (by decide)

/-- Claim C9: `deleteUser` on an id whose username is `admin` fails with
`Cannot delete the admin user` and (errors carrying no state) deletes
nothing; on any other existing id it reports success with all of that
user's sessions and the user row gone and everything else kept. -/
theorem C9_delete_user (db : DB) (id : Nat) :
    ((∃ u, getUserById db id = some u ∧ u.username = "admin") →
      deleteUser db id = Except.error ("Cannot delete the admin user"))
  ∧ (∀ u, getUserById db id = some u → u.username ≠ "admin" →
      ∃ r db', deleteUser db id = Except.ok (r, db') ∧ r.success = true ∧
        (∀ s ∈ db'.sessions, s.user_id ≠ id) ∧
        (∀ w ∈ db'.users, w.id ≠ id) ∧
        (∀ s ∈ db.sessions, s.user_id ≠ id → s ∈ db'.sessions) ∧
        (∀ w ∈ db.users, w.id ≠ id → w ∈ db'.users)) := by
  constructor
  · rintro ⟨u, hu, hadmin⟩
    have hcond : ((getUserById db id).any fun v =>
        decide (v.username = "admin")) = true := by
      rw [hu]
      simpa using hadmin
    simp [deleteUser, hcond]
  · intro u hu hne
    have hcond : ((getUserById db id).any fun v =>
        decide (v.username = "admin")) = false := by
      rw [hu]
      simpa using hne
    refine ⟨{ success := true },
      { db with
        sessions := db.sessions.filter (fun s => ¬ s.user_id = id)
        users := db.users.filter (fun w => ¬ w.id = id) },
      ?_, rfl, ?_, ?_, ?_, ?_⟩
    · simp [deleteUser, hcond]
    · intro s hs
      simpa using (List.mem_filter.1 hs).2
    · intro w hw
      simpa using (List.mem_filter.1 hw).2
    · intro s hs hne2
      exact List.mem_filter.2 ⟨hs, by simpa using hne2⟩
    · intro w hw hne2
      exact List.mem_filter.2 ⟨hw, by simpa using hne2⟩

def wAdmin : UserRow :=
  { id := 1, username := "admin", password_hash := "h1", role := Role.admin
    is_active := true, created_at := 0, updated_at := 0 }

def wBob : UserRow :=
  { id := 2, username := "bob", password_hash := "h2", role := Role.user
    is_active := true, created_at := 0, updated_at := 0 }

def wC9db : DB :=
  { users := [wAdmin, wBob]
    sessions := [{ id := "s1", user_id := 1, expires_at := 10
                   created_at := 0 },
                 { id := "s2", user_id := 2, expires_at := 10
                   created_at := 0 }] }

/-- Witness for C9: the admin user (id 1) is protected, the other user
(id 2) and their session are removed. -/
theorem C9_delete_user_witness :
    deleteUser wC9db 1 = Except.error ("Cannot delete the admin user") ∧
    (∃ r db', deleteUser wC9db 2 = Except.ok (r, db') ∧ r.success = true ∧
      (∀ s ∈ db'.sessions, s.user_id ≠ 2) ∧
      (∀ w ∈ db'.users, w.id ≠ 2) ∧
      (∀ s ∈ wC9db.sessions, s.user_id ≠ 2 → s ∈ db'.sessions) ∧
      (∀ w ∈ wC9db.users, w.id ≠ 2 → w ∈ db'.users)) := by
  constructor
  · exact (C9_delete_user wC9db 1).1 ⟨projectUser wAdmin, by decide,
      by decide⟩
  · exact (C9_delete_user wC9db 2).2 (projectUser wBob) (by decide)
      (by decide)

/-- Two user tables agree on everything except possibly `password_hash`. -/
def usersAgreeModHash (l1 l2 : List UserRow) : Prop :=
  List.Forall₂ (fun a b => a.id = b.id ∧ a.username = b.username ∧
    a.role = b.role ∧ a.is_active = b.is_active ∧
    a.created_at = b.created_at ∧ a.updated_at = b.updated_at) l1 l2

/-- Claim C10: `getUsers` and `getUserById` return the hash-free `User`
projection, and their results are independent of the `password_hash`
column: stores differing only in that column give identical results. -/
theorem C10_users_hash_free :
    ∀ db1 db2 : DB, usersAgreeModHash db1.users db2.users →
      getUsers db1 = getUsers db2 ∧
      ∀ id, getUserById db1 id = getUserById db2 id := by
  have key : ∀ l1 l2, usersAgreeModHash l1 l2 →
      l1.map projectUser = l2.map projectUser ∧
      ∀ id, (l1.find? fun r => decide (r.id = id)).map projectUser
          = (l2.find? fun r => decide (r.id = id)).map projectUser := by
    intro l1 l2 h
    induction h with
    | nil => exact ⟨rfl, fun _ => rfl⟩
    | @cons a b t1 t2 hab htail ih =>
      obtain ⟨h1, h2, h3, h4, h5, h6⟩ := hab
      have hproj : projectUser a = projectUser b := by
        unfold projectUser
        rw [h1, h2, h3, h4, h5, h6]
      constructor
      · simp only [List.map_cons, hproj, ih.1]
      · intro id
        simp only [List.find?_cons]
        rw [← h1]
        cases hd : decide (a.id = id)
        · simpa using ih.2 id
        · simp [hproj]
  intro db1 db2 h
  exact ⟨(key db1.users db2.users h).1,
    fun id => (key db1.users db2.users h).2 id⟩

def wC10db1 : DB := { users := [{ wBob with password_hash := "x" }] }

def wC10db2 : DB := { users := [{ wBob with password_hash := "y" }] }

/-- Witness for C10: two stores that differ only in the stored hash give
the same user listings and lookups. -/
theorem C10_users_hash_free_witness :
    getUsers wC10db1 = getUsers wC10db2 ∧
    getUserById wC10db1 2 = getUserById wC10db2 2 := by
  have h : usersAgreeModHash wC10db1.users wC10db2.users := by
    unfold usersAgreeModHash
    exact List.Forall₂.cons (by decide) List.Forall₂.nil
  exact ⟨(C10_users_hash_free wC10db1 wC10db2 h).1,
    (C10_users_hash_free wC10db1 wC10db2 h).2 2⟩

def wSupplier : SupplierRow :=
  { id := 1, name := "Acme", contact_person := none, phone_number := none
    address := none, created_at := 0, updated_at := 0 }

def wC2db : DB := { items := [wC7row], suppliers := [wSupplier] }

def wC2inp : CreatePurchaseInput :=
  { item_id := 1, supplier_id := 1, quantity := 5, unit_price := 51/2
    purchase_date := 0 }

def junkPurchase : PurchaseRow :=
  { id := 0, item_id := 0, supplier_id := 0, quantity := 0, unit_price := 0
    total_price := 0, purchase_date := 0, notes := none, created_at := 0
    updated_at := 0 }

/-- The result of the concrete `createPurchase` call (the call succeeds, so
the fallback branch is never taken). -/
def wC2pair : PurchaseRow × DB :=
  match createPurchase wC2db wC2inp with
  | .ok p => p
  | .error _ => (junkPurchase, wC2db)

def wC2upd : UpdatePurchaseInput := { id := 1, quantity := some 10 }

/-- The result of the concrete partial `updatePurchase` call. -/
def wC2pair2 : PurchaseRow × DB :=
  match updatePurchase wC2pair.2 wC2upd with
  | .ok p => p
  | .error _ => (junkPurchase, wC2pair.2)

/-- Witness for C2: creating a purchase of 5 at 25.5 stores
`5 * 25.5`; a partial update to quantity 10 recomputes the total from the
stored unit price. -/
theorem C2_total_price_witness :
    (wC2pair.1.total_price = (wC2inp.quantity : Rat) * wC2inp.unit_price ∧
      wC2pair.1 ∈ wC2pair.2.purchases) ∧
    (wC2pair2.1.total_price =
        ((wC2upd.quantity.getD wC2pair.1.quantity : Nat) : Rat) *
          (wC2upd.unit_price.getD wC2pair.1.unit_price) ∧
      wC2pair2.1 ∈ wC2pair2.2.purchases) := by
  constructor
  · exact C2_total_price.1 wC2db wC2inp wC2pair.1 wC2pair.2 rfl
  · exact C2_total_price.2 wC2pair.2 wC2upd wC2pair2.1 wC2pair2.2 wC2pair.1
      rfl (by decide) rfl

def wC3db : DB := { categories := [wCat] }

/-- The row fabricated by the stub for a non-existent id. -/
def wC3fabricated : CategoryRow :=
  { id := 999, name := "Non-existent Category", description := none
    created_at := 0, updated_at := 0 }

/-- The row fabricated by the stub for an empty partial update of id 1. -/
def wC3defaulted : CategoryRow :=
  { id := 1, name := "Default Category", description := none
    created_at := 0, updated_at := 0 }

/-- Claim C3 (evidence of the code bug): the repository's only
`updateCategory` handler is a placeholder stub.  Updating the non-existent
id 999 returns a fabricated row instead of failing; updating the existing
category 1 while supplying no fields returns the name `Default Category`
instead of the stored `Hardware`; the store is never read or written. -/
theorem C3_stub_update_category :
    updateCategory wC3db { id := 999, name := some "Non-existent Category" }
      = Except.ok (wC3fabricated, wC3db) ∧
    updateCategory wC3db { id := 1 } = Except.ok (wC3defaulted, wC3db) ∧
    (findCategory wC3db 1).map (fun c => c.name) = some "Hardware" := by
  decide

def wLoc2 : LocationRow :=
  { wLoc with id := 2, name := "Annex", branch_code := "AX1" }

def wC4db : DB :=
  { locations := [wLoc, wLoc2], categories := [wCat], items := [wC7row] }

/-- Claim C4 (evidence of the code bug): the stub `deleteCategory` reports
success on category 1 even though item 1 still references it and nothing
is deleted, while the real `deleteLocation` correctly fails on the
referenced location 1 and succeeds (removing the row) on the unreferenced
location 2. -/
theorem C4_delete_referenced :
    deleteCategory wC4db 1 = Except.ok (true, wC4db) ∧
    (wC4db.items.any (fun r => r.category_id = 1)) = true ∧
    deleteLocation wC4db 1 = Except.error
      ("delete on table locations violates foreign key constraint") ∧
    ((deleteLocation wC4db 2).toOption.map
      (fun p => (p.1, p.2.locations.map (fun l => l.id))))
        = some (true, [1]) := by
  decide

/-- Claim C1 (amended): `createLocationHistory` with status `completed`
leaves the referenced item at `to_location_id` and with any other status
leaves the items table untouched; `updateLocationHistory` moves the item
only when the supplied status is `completed` and the row's prior status was
not already `completed` — in every other case (including re-submitting
`completed` on an already-completed row) the items table is untouched. -/
theorem C1_amended :
    (∀ db inp h db', createLocationHistory db inp = Except.ok (h, db') →
      ((inp.status = TransferStatus.completed →
          (findItem db' inp.item_id).map (fun it => it.location_id) =
            some inp.to_location_id) ∧
       (inp.status ≠ TransferStatus.completed → db'.items = db.items)))
  ∧ (∀ db inp h db' cur, findHist db inp.id = some cur →
      updateLocationHistory db inp = Except.ok (h, db') →
      (((inp.status = some TransferStatus.completed ∧
            cur.status ≠ TransferStatus.completed) →
          (findItem db cur.item_id).isSome →
          (findItem db' cur.item_id).map (fun it => it.location_id) =
            some cur.to_location_id) ∧
       (¬ (inp.status = some TransferStatus.completed ∧
            cur.status ≠ TransferStatus.completed) →
          db'.items = db.items))) := by
  constructor
  · intro db inp h db' hok
    unfold createLocationHistory at hok
    split at hok
    · simp at hok
    · split at hok
      · simp at hok
      · rename_i hitem hloc
        cases hfv : fkViolation
            (fun fid => db.locations.any fun r => decide (r.id = fid))
            inp.from_location_id with
        | some fid =>
          rw [hfv] at hok
          simp at hok
        | none =>
          rw [hfv] at hok
          simp only [Except.ok.injEq] at hok
          unfold createLocationHistoryInsert at hok
          simp only [Prod.mk.injEq] at hok
          obtain ⟨hh, hdb⟩ := hok
          subst hh
          subst hdb
          constructor
          · intro hst
            rw [if_pos hst]
            dsimp only [findItem]
            have hstable := find?_map_stable
              (fun it : ItemRow =>
                if it.id = inp.item_id then
                  { it with location_id := inp.to_location_id
                            updated_at := db.now }
                else it)
              (fun r : ItemRow => decide (r.id = inp.item_id))
              (fun a => by by_cases hid : a.id = inp.item_id <;> simp [hid])
              db.items
            rw [hstable]
            obtain ⟨it0, hmem, hp⟩ := List.any_eq_true.1 (not_not.mp hitem)
            have hsome :
                ((db.items.find? fun r =>
                  decide (r.id = inp.item_id)).isSome) :=
              List.find?_isSome.2 ⟨it0, hmem, hp⟩
            obtain ⟨x, hx⟩ := Option.isSome_iff_exists.1 hsome
            rw [hx]
            have hxid : x.id = inp.item_id := by
              simpa using List.find?_some hx
            simp [hxid]
          · intro hst
            rw [if_neg hst]
  · intro db inp h db' cur hfind hok
    unfold updateLocationHistory at hok
    rw [hfind] at hok
    simp only [Except.ok.injEq, Prod.mk.injEq] at hok
    obtain ⟨hh, hdb⟩ := hok
    subst hh
    subst hdb
    constructor
    · rintro ⟨hst, hncur⟩ hitem
      rw [if_pos ⟨hst, hncur⟩]
      dsimp only [findItem]
      have hstable := find?_map_stable
        (fun it : ItemRow =>
          if it.id = cur.item_id then
            { it with location_id := cur.to_location_id
                      updated_at := db.now }
          else it)
        (fun r : ItemRow => decide (r.id = cur.item_id))
        (fun a => by by_cases hid : a.id = cur.item_id <;> simp [hid])
        db.items
      rw [hstable]
      unfold findItem at hitem
      obtain ⟨x, hx⟩ := Option.isSome_iff_exists.1 hitem
      rw [hx]
      have hxid : x.id = cur.item_id := by
        simpa using List.find?_some hx
      simp [hxid]
    · intro hnot
      rw [if_neg hnot]

def junkHist : HistoryRow :=
  { id := 0, item_id := 0, from_location_id := none, to_location_id := 0
    transfer_date := 0, transferred_by := "", reason := none
    status := TransferStatus.pending, notes := none, created_at := 0
    updated_at := 0 }

def wC1db : DB :=
  { locations := [wLoc, wLoc2], categories := [wCat], items := [wC7row] }

def wC1inp : CreateHistoryInput :=
  { item_id := 1, to_location_id := 2, transfer_date := 0
    transferred_by := "bob", status := TransferStatus.completed }

/-- The result of the concrete completed-transfer creation. -/
def wC1pair : HistoryRow × DB :=
  match createLocationHistory wC1db wC1inp with
  | .ok p => p
  | .error _ => (junkHist, wC1db)

def wC1histPending : HistoryRow :=
  { id := 1, item_id := 1, from_location_id := none, to_location_id := 2
    transfer_date := 0, transferred_by := "bob", reason := none
    status := TransferStatus.pending, notes := none, created_at := 0
    updated_at := 0 }

def wC1db2 : DB := { wC1db with history := [wC1histPending] }

def wC1updInp : UpdateHistoryInput :=
  { id := 1, status := some TransferStatus.completed }

/-- The result of the concrete pending→completed update. -/
def wC1pair2 : HistoryRow × DB :=
  match updateLocationHistory wC1db2 wC1updInp with
  | .ok p => p
  | .error _ => (junkHist, wC1db2)

def wC1updNotes : UpdateHistoryInput :=
  { id := 1, notes := some (some "checked") }

/-- The result of the concrete notes-only update. -/
def wC1pair3 : HistoryRow × DB :=
  match updateLocationHistory wC1db2 wC1updNotes with
  | .ok p => p
  | .error _ => (junkHist, wC1db2)

/-- Witness for the amended C1: a completed create moves item 1 to
location 2; a pending→completed update moves it as well; a notes-only
update leaves the items table untouched. -/
theorem C1_amended_witness :
    ((findItem wC1pair.2 wC1inp.item_id).map (fun it => it.location_id) =
      some wC1inp.to_location_id) ∧
    ((findItem wC1pair2.2 wC1histPending.item_id).map
      (fun it => it.location_id) = some wC1histPending.to_location_id) ∧
    (wC1pair3.2.items = wC1db2.items) := by
  refine ⟨?_, ?_, ?_⟩
  · exact (C1_amended.1 wC1db wC1inp wC1pair.1 wC1pair.2 rfl).1 rfl
  · exact (C1_amended.2 wC1db2 wC1updInp wC1pair2.1 wC1pair2.2
      wC1histPending (by decide) rfl).1 (by decide) (by decide)
  · exact (C1_amended.2 wC1db2 wC1updNotes wC1pair3.1 wC1pair3.2
      wC1histPending (by decide) rfl).2 (by decide)

/-- Transcript state: one item imported (auto-creating category `Hardware`
and location `HQ`, both id 1). -/
def exC1db1 : DB :=
  (batchImportItems {}
    [{ item_code := "IT1", name := "Printer", category_name := "Hardware"
       location_name := "HQ", condition := Condition.good, quantity := 1
       purchase_price := 10, purchase_date := 0 }]
    (fun _ => 7)).2

/-- Transcript state: a second location (id 2) created. -/
def exC1db2 : DB :=
  match createLocation exC1db1 "Warehouse" "WH1" none with
  | .ok p => p.2
  | .error _ => exC1db1

/-- Transcript state: a completed transfer of item 1 to location 2 is
recorded (history row id 1), moving the item there. -/
def exC1db3 : DB :=
  match createLocationHistory exC1db2
      { item_id := 1, to_location_id := 2, transfer_date := 0
        transferred_by := "bob", status := TransferStatus.completed } with
  | .ok p => p.2
  | .error _ => exC1db2

/-- Transcript state: the item is then edited directly back to
location 1. -/
def exC1db4 : DB :=
  match updateInventoryItem exC1db3 { id := 1, location_id := some 1 } with
  | .ok p => p.2
  | .error _ => exC1db3

def exC1upd : UpdateHistoryInput :=
  { id := 1, status := some TransferStatus.completed }

/-- Counterexample to C1 as stated: re-submitting status `completed` on
the already-completed history row 1 succeeds with resulting status
`completed` and `to_location_id = 2`, yet the referenced item 1 stays at
location 1 — the write does not set `location_id` to `to_location_id`. -/
theorem C1_counterexample :
    ((updateLocationHistory exC1db4 exC1upd).toOption.map
      (fun p => (p.1.status, p.1.item_id, p.1.to_location_id)))
        = some (TransferStatus.completed, 1, 2) ∧
    ((updateLocationHistory exC1db4 exC1upd).toOption.map
      (fun p => (findItem p.2 1).map (fun it => it.location_id)))
        = some (some 1) := by
  decide

/-! ## Batch-import invariants (C5) -/

/-- Every entry of a name→id map has a backing row whose (lower-cased)
name is the key. -/
def mapSound {α : Type} (nameOf : α → String) (m : List (String × Nat))
    (rows : List α) : Prop :=
  ∀ p ∈ m, ∃ c ∈ rows, nameOf c = p.1

/-- Lower-cased category name, the key used by the batch import map. -/
def catName (c : CategoryRow) : String := lowerStr c.name

/-- Lower-cased location name, the key used by the batch import map. -/
def locName (l : LocationRow) : String := lowerStr l.name

/-- Membership after a JavaScript `Map.set`. -/
theorem amSet_mem {m : List (String × Nat)} {k : String} {v : Nat}
    {p : String × Nat} (hp : p ∈ amSet m k v) : p ∈ m ∨ p = (k, v) := by
  unfold amSet at hp
  split at hp
  · obtain ⟨q, hq, hpq⟩ := List.mem_map.1 hp
    by_cases hk : q.1 = k
    · right
      rw [← hpq]
      simp [hk]
    · left
      rw [← hpq]
      simp only [hk, if_false]
      exact hq
  · rcases List.mem_append.1 hp with h | h
    · exact Or.inl h
    · right
      simpa using h

/-- Membership after building a JavaScript `Map` from an entry list. -/
theorem foldl_amSet_mem :
    ∀ (entries acc : List (String × Nat)) (p : String × Nat),
      p ∈ List.foldl (fun m q => amSet m q.1 q.2) acc entries →
      p ∈ acc ∨ p ∈ entries := by
  intro entries
  induction entries with
  | nil =>
    intro acc p hp
    exact Or.inl hp
  | cons q qs ih =>
    intro acc p hp
    simp only [List.foldl_cons] at hp
    rcases ih (amSet acc q.1 q.2) p hp with h | h
    · rcases amSet_mem h with h' | h'
      · exact Or.inl h'
      · right
        rw [h']
        simp
    · exact Or.inr (List.mem_cons_of_mem q h)

/-- The map built from the current rows is sound. -/
theorem mapSound_buildMap {α : Type} (nameOf : α → String)
    (idOf : α → Nat) (rows : List α) :
    mapSound nameOf
      (buildMap (rows.map (fun c => (nameOf c, idOf c)))) rows := by
  intro p hp
  have hp' := foldl_amSet_mem (rows.map fun c => (nameOf c, idOf c)) [] p
    (by simpa [buildMap] using hp)
  rcases hp' with h | h
  · simp at h
  · obtain ⟨c, hc, hcp⟩ := List.mem_map.1 h
    refine ⟨c, hc, ?_⟩
    rw [← hcp]

/-- Soundness is preserved when a row is appended and its key set. -/
theorem mapSound_insert {α : Type} (nameOf : α → String)
    {m : List (String × Nat)} {rows : List α}
    (hs : mapSound nameOf m rows) (c : α) (v : Nat) :
    mapSound nameOf (amSet m (nameOf c) v) (rows ++ [c]) := by
  intro p hp
  rcases amSet_mem hp with h | h
  · obtain ⟨d, hd, hdl⟩ := hs p h
    exact ⟨d, List.mem_append_left _ hd, hdl⟩
  · refine ⟨c, List.mem_append_right _ (by simp), ?_⟩
    rw [h]

/-- A successful map lookup has a backing row for its key. -/
theorem amGet_mapSound {α : Type} (nameOf : α → String)
    {m : List (String × Nat)} {rows : List α} {k : String} {v : Nat}
    (hs : mapSound nameOf m rows) (hq : amGet m k = some v) :
    ∃ c ∈ rows, nameOf c = k := by
  unfold amGet at hq
  obtain ⟨q, hqf, _⟩ := Option.map_eq_some'.1 hq
  have hq1 : q.1 = k := by simpa using List.find?_some hqf
  obtain ⟨c, hc, hcl⟩ := hs q (List.mem_of_find?_eq_some hqf)
  exact ⟨c, hc, by rw [hcl, hq1]⟩

/-- The category row inserted by the batch import for an unknown name. -/
def newCatRow (acc : BatchAcc) (r : BatchRow) : CategoryRow :=
  { id := freshId (List.map (fun c => c.id) acc.db.categories)
    name := r.category_name, description := none
    created_at := acc.db.now, updated_at := acc.db.now }

/-- The location row inserted by the batch import for an unknown name. -/
def newLocRow (rnd : Nat) (acc : BatchAcc) (r : BatchRow) : LocationRow :=
  { id := freshId (List.map (fun l => l.id) acc.db.locations)
    name := r.location_name
    branch_code := upperStr (takeStr r.location_name 3) ++ toString rnd
    address := none, created_at := acc.db.now, updated_at := acc.db.now }

/-- Effect of the find-or-create category step on one row. -/
theorem batchCategoryId_spec (acc : BatchAcc) (r : BatchRow)
    (hs : mapSound catName acc.catMap acc.db.categories) :
    mapSound catName (batchCategoryId acc r).2.catMap
        (batchCategoryId acc r).2.db.categories ∧
    (∃ c ∈ (batchCategoryId acc r).2.db.categories,
        lowerStr c.name = lowerStr r.category_name) ∧
    (∀ c ∈ acc.db.categories, c ∈ (batchCategoryId acc r).2.db.categories) ∧
    (batchCategoryId acc r).2.db.locations = acc.db.locations ∧
    (batchCategoryId acc r).2.db.items = acc.db.items ∧
    (batchCategoryId acc r).2.locMap = acc.locMap ∧
    (batchCategoryId acc r).2.success = acc.success ∧
    (batchCategoryId acc r).2.errors = acc.errors := by
  unfold batchCategoryId
  dsimp only
  split
  · dsimp only
    refine ⟨?_, ?_, ?_, rfl, rfl, rfl, rfl, rfl⟩
    · exact mapSound_insert catName hs (newCatRow acc r) (newCatRow acc r).id
    · exact ⟨newCatRow acc r,
        List.mem_append_right _ (List.mem_singleton.2 rfl), rfl⟩
    · intro c hc
      exact List.mem_append_left _ hc
  · rename_i hz
    dsimp only
    refine ⟨hs, ?_, fun c hc => hc, rfl, rfl, rfl, rfl, rfl⟩
    cases hq : amGet acc.catMap (lowerStr r.category_name) with
    | none =>
      rw [hq] at hz
      simp at hz
    | some v => simpa [catName] using amGet_mapSound catName hs hq

/-- Effect of the find-or-create location step on one row. -/
theorem batchLocationId_spec (rnd : Nat) (acc : BatchAcc) (r : BatchRow)
    (hs : mapSound locName acc.locMap acc.db.locations) :
    mapSound locName (batchLocationId rnd acc r).2.locMap
        (batchLocationId rnd acc r).2.db.locations ∧
    (∃ l ∈ (batchLocationId rnd acc r).2.db.locations,
        lowerStr l.name = lowerStr r.location_name) ∧
    (∀ l ∈ acc.db.locations, l ∈ (batchLocationId rnd acc r).2.db.locations) ∧
    (batchLocationId rnd acc r).2.db.categories = acc.db.categories ∧
    (batchLocationId rnd acc r).2.db.items = acc.db.items ∧
    (batchLocationId rnd acc r).2.catMap = acc.catMap ∧
    (batchLocationId rnd acc r).2.success = acc.success ∧
    (batchLocationId rnd acc r).2.errors = acc.errors := by
  unfold batchLocationId
  dsimp only
  split
  · dsimp only
    refine ⟨?_, ?_, ?_, rfl, rfl, rfl, rfl, rfl⟩
    · exact mapSound_insert locName hs (newLocRow rnd acc r)
        (newLocRow rnd acc r).id
    · exact ⟨newLocRow rnd acc r,
        List.mem_append_right _ (List.mem_singleton.2 rfl), rfl⟩
    · intro l hl
      exact List.mem_append_left _ hl
  · rename_i hz
    dsimp only
    refine ⟨hs, ?_, fun l hl => hl, rfl, rfl, rfl, rfl, rfl⟩
    cases hq : amGet acc.locMap (lowerStr r.location_name) with
    | none =>
      rw [hq] at hz
      simp at hz
    | some v => simpa [locName] using amGet_mapSound locName hs hq

/-- What a successful store-level item insert guarantees. -/
theorem dbInsertItem_ok_spec {db : DB} {code name : String}
    {desc : Option String} {cid lid : Nat} {cond : Condition} {q : Nat}
    {price : Rat} {date : Nat} {row : ItemRow} {db' : DB}
    (h : dbInsertItem db code name desc cid lid cond q price date =
      Except.ok (row, db')) :
    db' = { db with items := db.items ++ [row] } ∧
    row.category_id = cid ∧ row.location_id = lid ∧
    (∃ c ∈ db.categories, c.id = cid) ∧
    (∃ l ∈ db.locations, l.id = lid) := by
  unfold dbInsertItem at h
  split at h
  · simp at h
  · split at h
    · simp at h
    · split at h
      · simp at h
      · rename_i hdup hcat hloc
        simp only [Except.ok.injEq, Prod.mk.injEq] at h
        obtain ⟨hr, hd⟩ := h
        subst hr
        subst hd
        refine ⟨rfl, rfl, rfl, ?_, ?_⟩
        · obtain ⟨c, hc, hcid⟩ := List.any_eq_true.1 (not_not.mp hcat)
          exact ⟨c, hc, by simpa using hcid⟩
        · obtain ⟨l, hl, hlid⟩ := List.any_eq_true.1 (not_not.mp hloc)
          exact ⟨l, hl, by simpa using hlid⟩

/-- Effect of one iteration of the batch-import loop: exactly one success
or one error is recorded, the item count tracks the success count, the
row's category and location names are present afterwards, and the store's
reference rows only grow. -/
theorem batchProcessRow_spec (i : Nat) (rand : Nat → Nat) (acc : BatchAcc)
    (r : BatchRow) (hc : mapSound catName acc.catMap acc.db.categories)
    (hl : mapSound locName acc.locMap acc.db.locations) :
    mapSound catName (batchProcessRow i rand acc r).catMap
        (batchProcessRow i rand acc r).db.categories ∧
    mapSound locName (batchProcessRow i rand acc r).locMap
        (batchProcessRow i rand acc r).db.locations ∧
    (batchProcessRow i rand acc r).success +
        (batchProcessRow i rand acc r).errors.length =
      acc.success + acc.errors.length + 1 ∧
    (batchProcessRow i rand acc r).db.items.length + acc.success =
      acc.db.items.length + (batchProcessRow i rand acc r).success ∧
    (∃ c ∈ (batchProcessRow i rand acc r).db.categories,
        lowerStr c.name = lowerStr r.category_name) ∧
    (∃ l ∈ (batchProcessRow i rand acc r).db.locations,
        lowerStr l.name = lowerStr r.location_name) ∧
    (∀ c ∈ acc.db.categories,
        c ∈ (batchProcessRow i rand acc r).db.categories) ∧
    (∀ l ∈ acc.db.locations,
        l ∈ (batchProcessRow i rand acc r).db.locations) ∧
    (∀ it ∈ (batchProcessRow i rand acc r).db.items, it ∈ acc.db.items ∨
      ((∃ c ∈ (batchProcessRow i rand acc r).db.categories,
          c.id = it.category_id) ∧
       (∃ l ∈ (batchProcessRow i rand acc r).db.locations,
          l.id = it.location_id))) := by
  obtain ⟨s1, n1, m1, e1l, e1i, e1lm, e1s, e1e⟩ := batchCategoryId_spec acc r hc
  have hl1 : mapSound locName (batchCategoryId acc r).2.locMap
      (batchCategoryId acc r).2.db.locations := by
    rw [e1lm, e1l]
    exact hl
  obtain ⟨s2, n2, m2, e2c, e2i, e2cm, e2s, e2e⟩ :=
    batchLocationId_spec (rand i % 100) (batchCategoryId acc r).2 r hl1
  have hc2 : mapSound catName
      (batchLocationId (rand i % 100) (batchCategoryId acc r).2 r).2.catMap
      (batchLocationId (rand i % 100) (batchCategoryId acc r).2
        r).2.db.categories := by
    rw [e2cm, e2c]
    exact s1
  simp only [batchProcessRow]
  cases hres : dbInsertItem
      (batchLocationId (rand i % 100) (batchCategoryId acc r).2 r).2.db
      r.item_code r.name r.description (batchCategoryId acc r).1
      (batchLocationId (rand i % 100) (batchCategoryId acc r).2 r).1
      r.condition r.quantity r.purchase_price r.purchase_date with
  | ok p =>
    obtain ⟨row, db2⟩ := p
    obtain ⟨hdb', hrcid, hrlid, hcref, hlref⟩ := dbInsertItem_ok_spec hres
    subst hdb'
    refine ⟨hc2, s2, ?_, ?_, ?_, ?_, ?_, ?_, ?_⟩
    · show (batchLocationId (rand i % 100) (batchCategoryId acc r).2
          r).2.success + 1 +
        (batchLocationId (rand i % 100) (batchCategoryId acc r).2
          r).2.errors.length = acc.success + acc.errors.length + 1
      rw [e2s, e1s, e2e, e1e]
      omega
    · show ((batchLocationId (rand i % 100) (batchCategoryId acc r).2
          r).2.db.items ++ [row]).length + acc.success =
        acc.db.items.length +
          ((batchLocationId (rand i % 100) (batchCategoryId acc r).2
            r).2.success + 1)
      simp only [List.length_append, List.length_singleton, e2i, e1i, e2s,
        e1s]
      omega
    · show ∃ c ∈ (batchLocationId (rand i % 100) (batchCategoryId acc r).2
          r).2.db.categories, lowerStr c.name = lowerStr r.category_name
      rw [e2c]
      exact n1
    · exact n2
    · intro c hcm
      show c ∈ (batchLocationId (rand i % 100) (batchCategoryId acc r).2
          r).2.db.categories
      rw [e2c]
      exact m1 c hcm
    · intro l hlm
      exact m2 l (by rw [e1l]; exact hlm)
    · intro it hit
      have hit' : it ∈ (batchLocationId (rand i % 100)
          (batchCategoryId acc r).2 r).2.db.items ++ [row] := hit
      rcases List.mem_append.1 hit' with h | h
      · rw [e2i, e1i] at h
        exact Or.inl h
      · right
        rw [List.mem_singleton.1 h]
        constructor
        · obtain ⟨c, hcm, hcc⟩ := hcref
          exact ⟨c, hcm, by rw [hrcid]; exact hcc⟩
        · obtain ⟨l, hlm, hll⟩ := hlref
          exact ⟨l, hlm, by rw [hrlid]; exact hll⟩
  | error e =>
    refine ⟨hc2, s2, ?_, ?_, ?_, ?_, ?_, ?_, ?_⟩
    · show (batchLocationId (rand i % 100) (batchCategoryId acc r).2
          r).2.success +
        ((batchLocationId (rand i % 100) (batchCategoryId acc r).2
          r).2.errors ++
            ["Item " ++ toString (i + 1) ++ " (" ++ r.item_code ++ "): " ++
              e]).length = acc.success + acc.errors.length + 1
      simp only [List.length_append, List.length_singleton, e2s, e1s, e2e,
        e1e]
      omega
    · show (batchLocationId (rand i % 100) (batchCategoryId acc r).2
          r).2.db.items.length + acc.success =
        acc.db.items.length +
          (batchLocationId (rand i % 100) (batchCategoryId acc r).2
            r).2.success
      rw [e2i, e1i, e2s, e1s]
    · show ∃ c ∈ (batchLocationId (rand i % 100) (batchCategoryId acc r).2
          r).2.db.categories, lowerStr c.name = lowerStr r.category_name
      rw [e2c]
      exact n1
    · exact n2
    · intro c hcm
      show c ∈ (batchLocationId (rand i % 100) (batchCategoryId acc r).2
          r).2.db.categories
      rw [e2c]
      exact m1 c hcm
    · intro l hlm
      exact m2 l (by rw [e1l]; exact hlm)
    · intro it hit
      have hit' : it ∈ (batchLocationId (rand i % 100)
          (batchCategoryId acc r).2 r).2.db.items := hit
      rw [e2i, e1i] at hit'
      exact Or.inl hit'

/-- Loop invariant of `batchImportItems` over the remaining rows. -/
theorem batchGo_spec (rand : Nat → Nat) :
    ∀ (rows : List BatchRow) (i : Nat) (acc : BatchAcc),
      mapSound catName acc.catMap acc.db.categories →
      mapSound locName acc.locMap acc.db.locations →
      mapSound catName (batchGo rand i rows acc).catMap
          (batchGo rand i rows acc).db.categories ∧
      mapSound locName (batchGo rand i rows acc).locMap
          (batchGo rand i rows acc).db.locations ∧
      (batchGo rand i rows acc).success +
          (batchGo rand i rows acc).errors.length =
        acc.success + acc.errors.length + rows.length ∧
      (batchGo rand i rows acc).db.items.length + acc.success =
        acc.db.items.length + (batchGo rand i rows acc).success ∧
      (∀ c ∈ acc.db.categories,
          c ∈ (batchGo rand i rows acc).db.categories) ∧
      (∀ l ∈ acc.db.locations,
          l ∈ (batchGo rand i rows acc).db.locations) ∧
      (∀ r ∈ rows, ∃ c ∈ (batchGo rand i rows acc).db.categories,
          lowerStr c.name = lowerStr r.category_name) ∧
      (∀ r ∈ rows, ∃ l ∈ (batchGo rand i rows acc).db.locations,
          lowerStr l.name = lowerStr r.location_name) ∧
      (∀ it ∈ (batchGo rand i rows acc).db.items, it ∈ acc.db.items ∨
        ((∃ c ∈ (batchGo rand i rows acc).db.categories,
            c.id = it.category_id) ∧
         (∃ l ∈ (batchGo rand i rows acc).db.locations,
            l.id = it.location_id))) := by
  intro rows
  induction rows with
  | nil =>
    intro i acc hc hl
    refine ⟨hc, hl, by simp [batchGo], rfl, fun c h => h, fun l h => h,
      ?_, ?_, fun it hit => Or.inl hit⟩
    · intro r hr
      simp at hr
    · intro r hr
      simp at hr
  | cons r rest ih =>
    intro i acc hc hl
    obtain ⟨pc, pl, pcount, pitems, pnamec, pnamel, pmc, pml, pprov⟩ :=
      batchProcessRow_spec i rand acc r hc hl
    obtain ⟨gc, gl, gcount, gitems, gmc, gml, gnamec, gnamel, gprov⟩ :=
      ih (i + 1) (batchProcessRow i rand acc r) pc pl
    simp only [batchGo]
    refine ⟨gc, gl, ?_, ?_, ?_, ?_, ?_, ?_, ?_⟩
    · simp only [List.length_cons]
      omega
    · omega
    · intro c hcm
      exact gmc c (pmc c hcm)
    · intro l hlm
      exact gml l (pml l hlm)
    · intro r' hr'
      rcases List.mem_cons.1 hr' with h | h
      · subst h
        obtain ⟨c, hcm, hcn⟩ := pnamec
        exact ⟨c, gmc c hcm, hcn⟩
      · exact gnamec r' h
    · intro r' hr'
      rcases List.mem_cons.1 hr' with h | h
      · subst h
        obtain ⟨l, hlm, hln⟩ := pnamel
        exact ⟨l, gml l hlm, hln⟩
      · exact gnamel r' h
    · intro it hit
      rcases gprov it hit with h | h
      · rcases pprov it h with h' | h'
        · exact Or.inl h'
        · obtain ⟨⟨c, hcm, hcc⟩, ⟨l, hlm, hll⟩⟩ := h'
          exact Or.inr ⟨⟨c, gmc c hcm, hcc⟩, ⟨l, gml l hlm, hll⟩⟩
      · exact Or.inr h

/-- The loop state `batchImportItems` starts from. -/
def batchInitAcc (db : DB) : BatchAcc :=
  { db := db
    catMap := buildMap (db.categories.map (fun c => (lowerStr c.name, c.id)))
    locMap := buildMap (db.locations.map (fun l => (lowerStr l.name, l.id)))
    success := 0, errors := [] }

/-- Claim C5: `batchImportItems` never raises — it returns a success count
and collected per-row error messages with `success + errors = rows`
(each row contributes exactly one of the two, so a bad row cannot block
the others), the item count grows by exactly the success count, every
processed row's category and location name has a (case-insensitively)
matching row afterwards — auto-created when it was unknown — and every
inserted item references an existing category and location. -/
theorem C5_batch_import (db : DB) (rows : List BatchRow)
    (rand : Nat → Nat) :
    (batchImportItems db rows rand).1.success +
        (batchImportItems db rows rand).1.errors.length = rows.length ∧
    (batchImportItems db rows rand).2.items.length =
      db.items.length + (batchImportItems db rows rand).1.success ∧
    (∀ r ∈ rows, ∃ c ∈ (batchImportItems db rows rand).2.categories,
        lowerStr c.name = lowerStr r.category_name) ∧
    (∀ r ∈ rows, ∃ l ∈ (batchImportItems db rows rand).2.locations,
        lowerStr l.name = lowerStr r.location_name) ∧
    (∀ it ∈ (batchImportItems db rows rand).2.items, it ∈ db.items ∨
      ((∃ c ∈ (batchImportItems db rows rand).2.categories,
          c.id = it.category_id) ∧
       (∃ l ∈ (batchImportItems db rows rand).2.locations,
          l.id = it.location_id))) := by
  have h0c : mapSound catName (batchInitAcc db).catMap
      (batchInitAcc db).db.categories :=
    mapSound_buildMap catName (fun c => c.id) db.categories
  have h0l : mapSound locName (batchInitAcc db).locMap
      (batchInitAcc db).db.locations :=
    mapSound_buildMap locName (fun l => l.id) db.locations
  obtain ⟨gc, gl, gcount, gitems, gmc, gml, gnamec, gnamel, gprov⟩ :=
    batchGo_spec rand rows 0 (batchInitAcc db) h0c h0l
  refine ⟨?_, ?_, gnamec, gnamel, gprov⟩
  · show (batchGo rand 0 rows (batchInitAcc db)).success +
      (batchGo rand 0 rows (batchInitAcc db)).errors.length = rows.length
    have e1 : (batchInitAcc db).success = 0 := rfl
    have e2 : (batchInitAcc db).errors.length = 0 := rfl
    omega
  · show (batchGo rand 0 rows (batchInitAcc db)).db.items.length =
      db.items.length + (batchGo rand 0 rows (batchInitAcc db)).success
    have e1 : (batchInitAcc db).success = 0 := rfl
    have e2 : (batchInitAcc db).db.items.length = db.items.length := rfl
    omega

def wC5rowBad : BatchRow :=
  { item_code := "A1", name := "Dup", category_name := "Hardware"
    location_name := "HQ", condition := Condition.good, quantity := 1
    purchase_price := 3, purchase_date := 0 }

def wC5rowGood : BatchRow :=
  { item_code := "B2", name := "Scanner", category_name := "NewCat"
    location_name := "HQ", condition := Condition.good, quantity := 1
    purchase_price := 3, purchase_date := 0 }

def wC5rows : List BatchRow := [wC5rowBad, wC5rowGood]

def wC5rand : Nat → Nat := fun _ => 7

/-- Witness for C5: a batch of a duplicate-code row followed by a good row
with a fresh category name yields one success and one collected error (the
bad first row does not block the second), the item count grows by one, and
the new category name is present afterwards. -/
theorem C5_batch_import_witness :
    (batchImportItems wC4db wC5rows wC5rand).1.success +
        (batchImportItems wC4db wC5rows wC5rand).1.errors.length =
      wC5rows.length ∧
    (batchImportItems wC4db wC5rows wC5rand).1.success = 1 ∧
    (batchImportItems wC4db wC5rows wC5rand).1.errors.length = 1 ∧
    (batchImportItems wC4db wC5rows wC5rand).2.items.length =
      wC4db.items.length +
        (batchImportItems wC4db wC5rows wC5rand).1.success ∧
    (∃ c ∈ (batchImportItems wC4db wC5rows wC5rand).2.categories,
        lowerStr c.name = lowerStr wC5rowGood.category_name) := by
  obtain ⟨h1, h2, h3, h4, h5⟩ := C5_batch_import wC4db wC5rows wC5rand
  exact ⟨h1, by decide, by decide, h2, h3 wC5rowGood (by decide)⟩
